import Mathlib

/-!
# Verification of the django-chinese-annotation schema-migration engine

Shallow embedding of `django/db/migrations/migration.py`,
`django/db/migrations/operations/base.py` and
`django/db/migrations/recorder.py`, together with proofs settling the
frozen claims about them.

Project states are heap objects in Python: `apply` mutates the state it
receives in place, while `unapply` clones before every mutation.  To keep
these aliasing facts visible we model project states as references into an
explicit store; `ProjectState.clone()` allocates a fresh cell, and
`state_forwards` overwrites the cell the reference points at.  The payload
held by a cell is an abstract type `σ` (the actual model data of a
ProjectState is external to the migration engine).  Calls into the
external `SchemaEditor` (`database_forwards`, `database_backwards`,
appends to `collected_sql`) are recorded in an event trace.
-/

set_option autoImplicit false

namespace DjangoMigrations

/-- A heap of ProjectState payloads: `mem` gives the payload at each cell,
`next` is the next unallocated cell. -/
structure Store (σ : Type) where
  mem : Nat → σ
  next : Nat

namespace Store

variable {σ : Type}

/-- Dereference: the payload a ProjectState reference currently holds. -/
def read (st : Store σ) (r : Nat) : σ := st.mem r

/-- In-place mutation of the object `r` points at (what `state_forwards`
does to the state it is handed). -/
def write (st : Store σ) (r : Nat) (v : σ) : Store σ :=
  ⟨fun i => if i = r then v else st.mem i, st.next⟩

/-- Allocate a fresh object holding `v`; returns the new store and the
fresh reference. -/
def alloc (st : Store σ) (v : σ) : Store σ × Nat :=
  (⟨fun i => if i = st.next then v else st.mem i, st.next + 1⟩, st.next)

/-- `ProjectState.clone()`: allocate a fresh object with a copy of the
payload of `r`. -/
def clone (st : Store σ) (r : Nat) : Store σ × Nat :=
  st.alloc (st.read r)

end Store

/-- `django/db/migrations/operations/base.py`: the base `Operation`
contract.  `state_forwards` is the pure meaning of the in-place state
mutation (the app label is its first argument in the source).
`atomic` is a Python tri-state: `some true` / `some false` / `none`
(subclasses such as `RunPython` may set it to `None`); the base-class
default is `False`.  `describe` and `str_repr` stand for the results of
the `describe()` method and of `repr(operation)`. -/
structure Operation (σ : Type) where
  reversible : Bool
  reduces_to_sql : Bool
  atomic : Option Bool
  state_forwards : String → σ → σ
  describe : String
  str_repr : String

/-- `django/db/migrations/migration.py`: a `Migration` instance after
`__init__` has copied the class-level attribute lists. -/
structure Migration (σ : Type) where
  name : String
  app_label : String
  operations : List (Operation σ)
  dependencies : List (String × String)
  run_before : List (String × String)
  replaces : List String
  initial : Option Bool
  atomic : Bool

/-- The external `SchemaEditor` collaborator.  Modelled from the spec:
the editor code is not part of this repository; the spec says it exposes
an `atomic_migration` capability flag which is true exactly when the
backend supports transactional DDL and the whole migration is being
executed inside one transaction. -/
structure SchemaEditor where
  can_rollback_ddl : Bool
  migration_wrapped : Bool

/-- The editor's `atomic_migration` flag (see `SchemaEditor`). -/
def SchemaEditor.atomic_migration (ed : SchemaEditor) : Bool :=
  ed.can_rollback_ddl && ed.migration_wrapped

/-- Observable calls made against the external database/editor while a
migration runs: lines appended to `schema_editor.collected_sql`, and
`database_forwards` / `database_backwards` invocations.  For the database
calls we record the operation's repr, the payloads of the `from_state`
and `to_state` arguments at call time, and whether the call was wrapped
in a dedicated per-operation transaction. -/
inductive Event (σ : Type) where
  | collected_sql (line : String)
  | database_forwards (op : String) (from_state to_state : σ) (wrapped : Bool)
  | database_backwards (op : String) (from_state to_state : σ) (wrapped : Bool)
  deriving DecidableEq

/-- `migration.py` line 143 / 200:
`atomic_operation = operation.atomic or (self.atomic and operation.atomic is not False)`
read in the boolean context it is used in. -/
def atomicOperation {σ : Type} (m : Migration σ) (op : Operation σ) : Bool :=
  (op.atomic == some true) || (m.atomic && !(op.atomic == some false))

/-- The comment block appended to `collected_sql` for one operation when
`collect_sql` is set (`migration.py` lines 130-136 and 191-197). -/
def sqlComments {σ : Type} (op : Operation σ) : List (Event σ) :=
  [Event.collected_sql "--"]
    ++ (if !op.reduces_to_sql then
          [Event.collected_sql
            "-- MIGRATION NOW PERFORMS OPERATION THAT CANNOT BE WRITTEN AS SQL:"]
        else [])
    ++ [Event.collected_sql ("-- " ++ op.describe), Event.collected_sql "--"]

variable {σ : Type}

/-- The `for operation in self.operations` loop of `Migration.apply`
(`migration.py` lines 126-151).  `ps` is the reference held by the
`project_state` parameter; the loop mutates the referenced object in
place and emits editor events. -/
def applyLoop (m : Migration σ) (ed : SchemaEditor) (collect_sql : Bool) (ps : Nat) :
    Store σ → List (Operation σ) → Store σ × List (Event σ)
  | st, [] => (st, [])
  | st, op :: ops =>
    let comments := if collect_sql then sqlComments op else []
    if collect_sql && !op.reduces_to_sql then
      -- `continue`: neither `state_forwards` nor `database_forwards` runs
      let (st', tr) := applyLoop m ed collect_sql ps st ops
      (st', comments ++ tr)
    else
      -- old_state = project_state.clone()
      let c := st.clone ps
      let st1 := c.1
      let old_state := c.2
      -- operation.state_forwards(self.app_label, project_state)
      let st2 := st1.write ps (op.state_forwards m.app_label (st1.read ps))
      let ev : Event σ :=
        Event.database_forwards op.str_repr (st2.read old_state) (st2.read ps)
          (!ed.atomic_migration && atomicOperation m op)
      let (st', tr) := applyLoop m ed collect_sql ps st2 ops
      (st', comments ++ ev :: tr)

/-- `Migration.apply(project_state, schema_editor, collect_sql)`: runs the
loop and returns `project_state` (the same reference it was given). -/
def Migration.apply (m : Migration σ) (st : Store σ) (ps : Nat) (ed : SchemaEditor)
    (collect_sql : Bool) : Store σ × Nat × List (Event σ) :=
  let r := applyLoop m ed collect_sql ps st m.operations
  (r.1, ps, r.2)

/-- `IrreversibleError` from `django/db/migrations/exceptions.py`. -/
structure IrreversibleError where
  message : String
  deriving DecidableEq

/-- Phase 1 of `Migration.unapply` (`migration.py` lines 173-186): replay
`state_forwards` on clones, prepending `(operation, old_state, new_state)`
triples to `to_run`; raise `IrreversibleError` on the first operation with
`reversible == False`. -/
def unapplyPhase1 (m : Migration σ) :
    Store σ → Nat → List (Operation σ) → List (Operation σ × Nat × Nat) →
    Except IrreversibleError (Store σ × List (Operation σ × Nat × Nat))
  | st, _, [], to_run => Except.ok (st, to_run)
  | st, new_state, op :: ops, to_run =>
    if !op.reversible then
      Except.error
        ⟨"Operation " ++ op.str_repr ++ " in " ++ m.app_label ++ "." ++ m.name
          ++ " is not reversible"⟩
    else
      -- new_state = new_state.clone()
      let c1 := st.clone new_state
      -- old_state = new_state.clone()
      let c2 := c1.1.clone c1.2
      -- operation.state_forwards(self.app_label, new_state)
      let st3 := c2.1.write c1.2 (op.state_forwards m.app_label (c2.1.read c1.2))
      unapplyPhase1 m st3 c1.2 ops ((op, c2.2, c1.2) :: to_run)

/-- Phase 2 of `Migration.unapply` (`migration.py` lines 188-208): walk
`to_run` (already reversed), unpacking each triple as
`operation, to_state, from_state`, and call
`database_backwards(app_label, schema_editor, from_state, to_state)`
unless `collect_sql` skips a non-SQL operation. -/
def unapplyPhase2 (m : Migration σ) (ed : SchemaEditor) (collect_sql : Bool)
    (st : Store σ) : List (Operation σ × Nat × Nat) → List (Event σ)
  | [] => []
  | (op, to_state, from_state) :: rest =>
    let comments := if collect_sql then sqlComments op else []
    if collect_sql && !op.reduces_to_sql then
      comments ++ unapplyPhase2 m ed collect_sql st rest
    else
      comments
        ++ Event.database_backwards op.str_repr (st.read from_state) (st.read to_state)
            (!ed.atomic_migration && atomicOperation m op)
          :: unapplyPhase2 m ed collect_sql st rest

/-- `Migration.unapply(project_state, schema_editor, collect_sql)`: two
phases, then `return project_state` (the untouched reference it was
given). -/
def Migration.unapply (m : Migration σ) (st : Store σ) (ps : Nat) (ed : SchemaEditor)
    (collect_sql : Bool) :
    Except IrreversibleError (Store σ × Nat × List (Event σ)) :=
  match unapplyPhase1 m st ps m.operations [] with
  | Except.error e => Except.error e
  | Except.ok (st', to_run) =>
      Except.ok (st', ps, unapplyPhase2 m ed collect_sql st' to_run)

/-- `Migration.__eq__` (`migration.py` lines 81-86): equality looks only
at `name` and `app_label`. -/
def Migration.eq (a b : Migration σ) : Bool :=
  a.name == b.name && a.app_label == b.app_label

/-- A stand-in for Python's string hash: any fixed function of the string
contents.  `Migration.__hash__` is this function applied to
`"%s.%s" % (self.app_label, self.name)`. -/
def strHash (s : String) : Nat :=
  s.data.foldl (fun h c => (h * 1000003 + c.toNat) % 2 ^ 64) 5381

/-- `Migration.__hash__` (`migration.py` lines 94-95). -/
def Migration.hashVal (m : Migration σ) : Nat :=
  strHash (m.app_label ++ "." ++ m.name)

/-! ## MigrationRecorder (`django/db/migrations/recorder.py`)

The recorder talks to an external database through its floating
`Migration` model.  We model the observable database state — whether the
`django_migrations` table exists, its rows, and a clock supplying the
`applied` default timestamp — plus a trace of the queries issued. -/

/-- One row of the `django_migrations` table: `(app, name, applied)`. -/
structure MigrationRecord where
  app : String
  name : String
  applied : Nat
  deriving DecidableEq

/-- Observable state of the connection the recorder uses. -/
structure DBState where
  has_table : Bool
  rows : List MigrationRecord
  clock : Nat
  deriving DecidableEq

/-- Queries the recorder issues against the connection. -/
inductive DBEvent where
  | introspect_tables
  | create_table
  | insert (app name : String)
  | delete (app name : String)
  | delete_all
  deriving DecidableEq

namespace MigrationRecorder

/-- `MigrationRecorder.has_table()`: table-existence introspection. -/
def has_table (db : DBState) : Bool := db.has_table

/-- `MigrationRecorder.ensure_schema()`: introspect, and create the table
if it is absent (creation is assumed to succeed; the
`MigrationSchemaMissing` path only re-raises an external database
failure). -/
def ensure_schema (db : DBState) : DBState × List DBEvent :=
  if db.has_table then (db, [DBEvent.introspect_tables])
  else ({ db with has_table := true }, [DBEvent.introspect_tables, DBEvent.create_table])

/-- `MigrationRecorder.applied_migrations()`: a mapping keyed by
`(app, name)` over all rows when the table exists, `{}` otherwise. -/
def applied_migrations (db : DBState) : List ((String × String) × MigrationRecord) :=
  if db.has_table then db.rows.map (fun r => ((r.app, r.name), r))
  else []

/-- `MigrationRecorder.record_applied(app, name)`: `ensure_schema()` then
`self.migration_qs.create(app=app, name=name)` (the `applied` column
defaults to the current time). -/
def record_applied (db : DBState) (app name : String) : DBState × List DBEvent :=
  let e := ensure_schema db
  ({ e.1 with rows := e.1.rows ++ [⟨app, name, e.1.clock⟩], clock := e.1.clock + 1 },
    e.2 ++ [DBEvent.insert app name])

/-- `MigrationRecorder.record_unapplied(app, name)`: `ensure_schema()`
then `self.migration_qs.filter(app=app, name=name).delete()`. -/
def record_unapplied (db : DBState) (app name : String) : DBState × List DBEvent :=
  let e := ensure_schema db
  ({ e.1 with rows := e.1.rows.filter (fun r => !(r.app == app && r.name == name)) },
    e.2 ++ [DBEvent.delete app name])

/-- `MigrationRecorder.flush()`: `self.migration_qs.all().delete()` — no
`ensure_schema()` call. -/
def flush (db : DBState) : DBState × List DBEvent :=
  ({ db with rows := [] }, [DBEvent.delete_all])

end MigrationRecorder

/-! ## Reference functions used to state the claims -/

/-- Folding `state_forwards` over a list of operations in declaration
order, starting from a given state payload. -/
def stateForwardsFold (app : String) (ops : List (Operation σ)) (s : σ) : σ :=
  ops.foldl (fun t op => op.state_forwards app t) s

/-- The operations whose bodies actually execute during `apply` for a
given `collect_sql` flag: when `collect_sql` is set, operations with
`reduces_to_sql == False` are skipped by the `continue`. -/
def executedOps (collect_sql : Bool) (ops : List (Operation σ)) : List (Operation σ) :=
  if collect_sql then ops.filter (fun op => op.reduces_to_sql) else ops

/-- Forward replay of a list of operations from a state payload,
recording for each operation the payload immediately before and
immediately after its `state_forwards`. -/
def forwardPairs (app : String) : σ → List (Operation σ) → List (Operation σ × σ × σ)
  | _, [] => []
  | s, op :: ops =>
    (op, s, op.state_forwards app s) :: forwardPairs app (op.state_forwards app s) ops

/-- Selects the `database_forwards` events of a trace. -/
def isDatabaseForwards : Event σ → Bool
  | Event.database_forwards _ _ _ _ => true
  | _ => false

/-- Dereference a phase-1 worklist: replace the `old_state` and
`new_state` references of each triple by their payloads. -/
def derefTriples (st : Store σ) (l : List (Operation σ × Nat × Nat)) :
    List (Operation σ × σ × σ) :=
  l.map (fun x => (x.1, st.read x.2.1, st.read x.2.2))

/-- Whether an `unapply` call returned normally. -/
def exceptOk {ε α : Type} : Except ε α → Bool
  | Except.ok _ => true
  | Except.error _ => false

/-- The event trace of an `unapply` result (empty when it raised). -/
def unapplyEvents : Except IrreversibleError (Store σ × Nat × List (Event σ)) → List (Event σ)
  | Except.ok x => x.2.2
  | Except.error _ => []

/-- The ProjectState reference an `unapply` call returned, if any. -/
def unapplyRef : Except IrreversibleError (Store σ × Nat × List (Event σ)) → Option Nat
  | Except.ok x => some x.2.1
  | Except.error _ => none

/-- The payload at reference `q` in the store an `unapply` call returned,
if it returned. -/
def unapplyRead (res : Except IrreversibleError (Store σ × Nat × List (Event σ)))
    (q : Nat) : Option σ :=
  match res with
  | Except.ok x => some (x.1.read q)
  | Except.error _ => none

/-- The per-operation transaction condition exactly as the specification
words it: wrap "when the schema backend lacks native transactional DDL,
or when `atomic_operation` is true while the migration itself is not
wrapped atomically".  Stated from the spec so it can be compared with
what `apply` does. -/
def specWrapCondition (m : Migration σ) (ed : SchemaEditor) (op : Operation σ) : Bool :=
  !ed.can_rollback_ddl || (atomicOperation m op && !ed.migration_wrapped)

/-! ## Concrete instances used for witnesses and counterexamples

The state payload type is `Nat`; `st0` is a store holding a single
ProjectState (reference 0, payload 0). -/

def st0 : Store Nat := ⟨fun _ => 0, 1⟩

/-- Editor for a transactional-DDL backend running the whole migration in
one transaction (`atomic_migration = true`). -/
def edDefault : SchemaEditor := ⟨true, true⟩

/-- Editor for a backend without transactional DDL. -/
def edNoDdl : SchemaEditor := ⟨false, false⟩

/-- A non-SQL operation (like `RunPython`): `reduces_to_sql = False`,
`atomic = None`, whose `state_forwards` increments the payload. -/
def opRunPy : Operation Nat :=
  ⟨true, false, none, fun _ s => s + 1, "Raw Python operation", "<RunPy>"⟩

/-- An ordinary reversible SQL operation with the base-class attribute
defaults (`atomic = False`), whose `state_forwards` increments. -/
def opSql : Operation Nat :=
  ⟨true, true, some false, fun _ s => s + 1, "Custom state operation", "<SqlOp>"⟩

/-- An irreversible operation (`reversible = False`). -/
def opIrrev : Operation Nat :=
  ⟨false, true, some false, fun _ s => s + 1, "Irreversible operation", "<IrrevOp>"⟩

def mEx1 : Migration Nat := ⟨"0002_auto", "app1", [opRunPy], [], [], [], none, true⟩

def mEx2 : Migration Nat := ⟨"0003_auto", "app1", [opSql, opSql], [], [], [], none, true⟩

def mEx3 : Migration Nat := ⟨"0004_auto", "app1", [opSql, opIrrev], [], [], [], none, true⟩

def mEx4 : Migration Nat := ⟨"0005_auto", "app1", [opSql], [], [], [], none, true⟩

/-- Two migrations with the same `(app_label, name)` but different
operations, dependencies, `replaces`, `initial` and `atomic`. -/
def mEqA : Migration Nat := ⟨"0001_first", "app1", [opSql], [], [], [], none, true⟩

def mEqB : Migration Nat :=
  ⟨"0001_first", "app1", [opRunPy, opIrrev], [("app0", "0001_first")], [], ["old"], some true, false⟩

/-- A fresh connection: no `django_migrations` table. -/
def dbEmpty : DBState := ⟨false, [], 0⟩

/-- A connection whose bookkeeping table exists and holds one row. -/
def dbOne : DBState := ⟨true, [⟨"app1", "0001_first", 0⟩], 1⟩

/-! ## Store lemmas -/

@[simp] theorem Store.read_write_self (st : Store σ) (r : Nat) (v : σ) :
    (st.write r v).read r = v := by
  simp [Store.read, Store.write]

theorem Store.read_write_ne (st : Store σ) (r q : Nat) (v : σ) (h : q ≠ r) :
    (st.write r v).read q = st.read q := by
  simp [Store.read, Store.write, h]

@[simp] theorem Store.next_write (st : Store σ) (r : Nat) (v : σ) :
    (st.write r v).next = st.next := rfl

@[simp] theorem Store.next_alloc (st : Store σ) (v : σ) :
    (st.alloc v).1.next = st.next + 1 := rfl

@[simp] theorem Store.alloc_ref (st : Store σ) (v : σ) :
    (st.alloc v).2 = st.next := rfl

theorem Store.read_alloc_ne (st : Store σ) (v : σ) (q : Nat) (h : q ≠ st.next) :
    (st.alloc v).1.read q = st.read q := by
  simp [Store.read, Store.alloc, h]

@[simp] theorem Store.read_alloc_self (st : Store σ) (v : σ) :
    (st.alloc v).1.read st.next = v := by
  simp [Store.read, Store.alloc]

@[simp] theorem Store.next_clone (st : Store σ) (r : Nat) :
    (st.clone r).1.next = st.next + 1 := rfl

@[simp] theorem Store.clone_ref (st : Store σ) (r : Nat) :
    (st.clone r).2 = st.next := rfl

theorem Store.read_clone_ne (st : Store σ) (r q : Nat) (h : q ≠ st.next) :
    (st.clone r).1.read q = st.read q :=
  Store.read_alloc_ne st _ q h

@[simp] theorem Store.read_clone_self (st : Store σ) (r : Nat) :
    (st.clone r).1.read st.next = st.read r :=
  Store.read_alloc_self st _

/-! ## Lemmas about the apply loop -/

theorem executedOps_cons_skip {collect_sql : Bool} (op : Operation σ) (ops : List (Operation σ))
    (h : (collect_sql && !op.reduces_to_sql) = true) :
    executedOps collect_sql (op :: ops) = executedOps collect_sql ops := by
  rcases Bool.and_eq_true_iff.mp h with ⟨hcs, hsql⟩
  simp [executedOps, hcs, List.filter_cons, Bool.not_eq_true' .. |>.mp hsql]

theorem executedOps_cons_exec {collect_sql : Bool} (op : Operation σ) (ops : List (Operation σ))
    (h : ¬((collect_sql && !op.reduces_to_sql) = true)) :
    executedOps collect_sql (op :: ops) = op :: executedOps collect_sql ops := by
  cases hcs : collect_sql with
  | false => simp [executedOps]
  | true =>
    have hsql : op.reduces_to_sql = true := by
      by_contra hs
      exact h (by simp [hcs, Bool.not_eq_true' .. |>.mpr (Bool.eq_false_iff.mpr hs)])
    simp [executedOps, List.filter_cons, hsql]

theorem applyLoop_next_mono (m : Migration σ) (ed : SchemaEditor) (collect_sql : Bool)
    (ps : Nat) :
    ∀ (ops : List (Operation σ)) (st : Store σ),
      st.next ≤ (applyLoop m ed collect_sql ps st ops).1.next := by
  intro ops
  induction ops with
  | nil => intro st; simp [applyLoop]
  | cons op ops ih =>
    intro st
    by_cases h : (collect_sql && !op.reduces_to_sql) = true
    · simpa [applyLoop, h] using ih st
    · have := ih (((st.clone ps).1).write ps
        (op.state_forwards m.app_label (((st.clone ps).1).read ps)))
      simp only [applyLoop, if_neg h] at *
      refine le_trans ?_ this
      simp

theorem applyLoop_read_ps (m : Migration σ) (ed : SchemaEditor) (collect_sql : Bool)
    (ps : Nat) :
    ∀ (ops : List (Operation σ)) (st : Store σ), ps < st.next →
      ((applyLoop m ed collect_sql ps st ops).1).read ps =
        stateForwardsFold m.app_label (executedOps collect_sql ops) (st.read ps) := by
  intro ops
  induction ops with
  | nil =>
    intro st _
    simp [applyLoop, executedOps, stateForwardsFold]
  | cons op ops ih =>
    intro st hp
    by_cases h : (collect_sql && !op.reduces_to_sql) = true
    · rw [executedOps_cons_skip op ops h]
      simpa [applyLoop, h] using ih st hp
    · rw [executedOps_cons_exec op ops h]
      have hps : ps ≠ st.next := Nat.ne_of_lt hp
      simp only [applyLoop, if_neg h]
      rw [ih _ (Nat.lt_succ_of_lt hp)]
      simp [stateForwardsFold, Store.read_clone_ne st ps ps hps]

theorem sqlComments_filter (op : Operation σ) :
    (sqlComments op).filter isDatabaseForwards = [] := by
  by_cases h : op.reduces_to_sql <;>
    simp [sqlComments, isDatabaseForwards, h]

theorem applyLoop_trace (m : Migration σ) (ed : SchemaEditor) (collect_sql : Bool)
    (ps : Nat) :
    ∀ (ops : List (Operation σ)) (st : Store σ), ps < st.next →
      ((applyLoop m ed collect_sql ps st ops).2).filter isDatabaseForwards =
        (forwardPairs m.app_label (st.read ps) (executedOps collect_sql ops)).map
          (fun x => Event.database_forwards x.1.str_repr x.2.1 x.2.2
            (!ed.atomic_migration && atomicOperation m x.1)) := by
  intro ops
  induction ops with
  | nil =>
    intro st _
    simp [applyLoop, executedOps, forwardPairs]
  | cons op ops ih =>
    intro st hp
    by_cases h : (collect_sql && !op.reduces_to_sql) = true
    · have hcs : collect_sql = true := (Bool.and_eq_true_iff.mp h).1
      subst hcs
      rw [executedOps_cons_skip op ops h]
      simp only [applyLoop, if_pos h]
      simp [List.filter_append, sqlComments_filter, ih st hp]
    · rw [executedOps_cons_exec op ops h]
      have hps : ps ≠ st.next := Nat.ne_of_lt hp
      have hns : st.next ≠ ps := Ne.symm hps
      simp only [applyLoop, if_neg h]
      have h1 : (((st.clone ps).1).write ps
          (op.state_forwards m.app_label (((st.clone ps).1).read ps))).read st.next =
          st.read ps := by
        rw [Store.read_write_ne _ _ _ _ hns, Store.read_clone_self]
      have h2 : (((st.clone ps).1).write ps
          (op.state_forwards m.app_label (((st.clone ps).1).read ps))).read ps =
          op.state_forwards m.app_label (st.read ps) := by
        rw [Store.read_write_self, Store.read_clone_ne st ps ps hps]
      simp [forwardPairs, h1, h2, isDatabaseForwards, sqlComments_filter,
        List.filter_append, List.filter_cons,
        apply_ite (List.filter (isDatabaseForwards (σ := σ))),
        ih (((st.clone ps).1).write ps
            (op.state_forwards m.app_label (((st.clone ps).1).read ps)))
          (by simpa using Nat.lt_succ_of_lt hp)]

/-! ## Lemmas about the unapply phases -/

theorem derefTriples_nil (st : Store σ) : derefTriples st [] = [] := rfl

theorem derefTriples_congr (st st' : Store σ) :
    ∀ (l : List (Operation σ × Nat × Nat)),
      (∀ x ∈ l, st'.read x.2.1 = st.read x.2.1 ∧ st'.read x.2.2 = st.read x.2.2) →
      derefTriples st' l = derefTriples st l := by
  intro l
  induction l with
  | nil => intro _; rfl
  | cons x xs ih =>
    intro h
    have hx := h x (List.mem_cons_self x xs)
    simp only [derefTriples, List.map_cons] at ih ⊢
    rw [hx.1, hx.2]
    exact congrArg (List.cons _) (ih (fun y hy => h y (List.mem_cons_of_mem x hy)))

theorem unapplyPhase1_error (m : Migration σ) :
    ∀ (ops : List (Operation σ)) (st : Store σ) (r : Nat)
      (acc : List (Operation σ × Nat × Nat)) (op : Operation σ),
      ops.find? (fun o => !o.reversible) = some op →
      unapplyPhase1 m st r ops acc =
        Except.error
          ⟨"Operation " ++ op.str_repr ++ " in " ++ m.app_label ++ "." ++ m.name
            ++ " is not reversible"⟩ := by
  intro ops
  induction ops with
  | nil => intro st r acc op hfind; simp [List.find?] at hfind
  | cons o os ih =>
    intro st r acc op hfind
    by_cases hrev : o.reversible = true
    · rw [List.find?_cons_of_neg _ (by simp [hrev])] at hfind
      simp only [unapplyPhase1, hrev, Bool.not_true, Bool.false_eq_true, if_false]
      exact ih _ _ _ op hfind
    · rw [List.find?_cons_of_pos _ (by simp [hrev])] at hfind
      have hop : o = op := by injection hfind
      subst hop
      simp [unapplyPhase1, Bool.not_eq_true' .. |>.mpr (Bool.eq_false_iff.mpr hrev)]

theorem unapplyPhase1_frame (m : Migration σ) :
    ∀ (ops : List (Operation σ)) (st : Store σ) (r : Nat)
      (acc : List (Operation σ × Nat × Nat)) (stF : Store σ)
      (to_run : List (Operation σ × Nat × Nat)),
      unapplyPhase1 m st r ops acc = Except.ok (stF, to_run) →
      st.next ≤ stF.next ∧ ∀ q, q < st.next → stF.read q = st.read q := by
  intro ops
  induction ops with
  | nil =>
    intro st r acc stF to_run hok
    simp only [unapplyPhase1, Except.ok.injEq, Prod.mk.injEq] at hok
    obtain ⟨rfl, -⟩ := hok
    exact ⟨le_refl _, fun q _ => rfl⟩
  | cons o os ih =>
    intro st r acc stF to_run hok
    by_cases hrev : o.reversible = true
    · simp only [unapplyPhase1, hrev, Bool.not_true, Bool.false_eq_true, if_false] at hok
      have := ih _ _ _ _ _ hok
      refine ⟨le_trans ?_ this.1, fun q hq => ?_⟩
      · simp
        omega
      · rw [this.2 q (by simp; omega)]
        have hq1 : q ≠ st.next := Nat.ne_of_lt hq
        have hq2 : q ≠ st.next + 1 := Nat.ne_of_lt (Nat.lt_succ_of_lt hq)
        rw [Store.read_write_ne _ _ _ _ (by simpa using hq1),
          Store.read_clone_ne _ _ _ (by simpa using hq2),
          Store.read_clone_ne _ _ _ hq1]
    · simp [unapplyPhase1, Bool.not_eq_true' .. |>.mpr (Bool.eq_false_iff.mpr hrev)] at hok

theorem iterStore_read_ns (app : String) (o : Operation σ) (st : Store σ) (r : Nat) :
    ((((st.clone r).1.clone (st.clone r).2).1).write (st.clone r).2
      (o.state_forwards app
        ((((st.clone r).1.clone (st.clone r).2).1).read (st.clone r).2))).read
      (st.clone r).2 =
    o.state_forwards app (st.read r) := by
  rw [Store.read_write_self, Store.clone_ref, Store.read_clone_ne _ _ _ (by simp),
    Store.read_clone_self]

theorem iterStore_read_old (app : String) (o : Operation σ) (st : Store σ) (r : Nat) :
    ((((st.clone r).1.clone (st.clone r).2).1).write (st.clone r).2
      (o.state_forwards app
        ((((st.clone r).1.clone (st.clone r).2).1).read (st.clone r).2))).read
      ((st.clone r).1.clone (st.clone r).2).2 =
    st.read r := by
  simp only [Store.read, Store.write, Store.clone, Store.alloc]
  split_ifs <;> first | rfl | omega

theorem iterStore_frame (app : String) (o : Operation σ) (st : Store σ) (r q : Nat)
    (hq : q < st.next) :
    ((((st.clone r).1.clone (st.clone r).2).1).write (st.clone r).2
      (o.state_forwards app
        ((((st.clone r).1.clone (st.clone r).2).1).read (st.clone r).2))).read q =
    st.read q := by
  have hq1 : q ≠ st.next := Nat.ne_of_lt hq
  have hq2 : q ≠ st.next + 1 := Nat.ne_of_lt (Nat.lt_succ_of_lt hq)
  rw [Store.read_write_ne _ _ _ _ (by simpa using hq1),
    Store.read_clone_ne _ _ _ (by simpa using hq2),
    Store.read_clone_ne _ _ _ hq1]

theorem unapplyPhase1_ok (m : Migration σ) :
    ∀ (ops : List (Operation σ)) (st : Store σ) (r : Nat)
      (acc : List (Operation σ × Nat × Nat)),
      (∀ op ∈ ops, op.reversible = true) → r < st.next →
      (∀ x ∈ acc, x.2.1 < st.next ∧ x.2.2 < st.next) →
      ∃ stF to_run,
        unapplyPhase1 m st r ops acc = Except.ok (stF, to_run) ∧
        derefTriples stF to_run =
          (forwardPairs m.app_label (st.read r) ops).reverse ++ derefTriples st acc := by
  intro ops
  induction ops with
  | nil =>
    intro st r acc _ _ _
    exact ⟨st, acc, rfl, by simp [forwardPairs]⟩
  | cons o os ih =>
    intro st r acc hrev hr hacc
    have horev : o.reversible = true := hrev o (List.mem_cons_self o os)
    have hstep := ih
      ((((st.clone r).1.clone (st.clone r).2).1).write (st.clone r).2
        (o.state_forwards m.app_label
          ((((st.clone r).1.clone (st.clone r).2).1).read (st.clone r).2)))
      (st.clone r).2 ((o, ((st.clone r).1.clone (st.clone r).2).2, (st.clone r).2) :: acc)
      (fun op hop => hrev op (List.mem_cons_of_mem o hop))
      (by
        simp only [Store.next_write, Store.next_clone, Store.clone_ref]
        omega)
      (by
        intro x hx
        simp only [Store.next_write, Store.next_clone]
        rcases List.mem_cons.mp hx with hx | hx
        · subst hx
          simp only [Store.clone_ref, Store.next_clone]
          omega
        · have := hacc x hx
          omega)
    obtain ⟨stF, to_run, heq, hderef⟩ := hstep
    refine ⟨stF, to_run, ?_, ?_⟩
    · simp only [unapplyPhase1, horev, Bool.not_true, Bool.false_eq_true, if_false]
      exact heq
    · rw [hderef, iterStore_read_ns]
      have hcons :
          derefTriples
            ((((st.clone r).1.clone (st.clone r).2).1).write (st.clone r).2
              (o.state_forwards m.app_label
                ((((st.clone r).1.clone (st.clone r).2).1).read (st.clone r).2)))
            ((o, ((st.clone r).1.clone (st.clone r).2).2, (st.clone r).2) :: acc) =
          (o, st.read r, o.state_forwards m.app_label (st.read r)) :: derefTriples st acc := by
        simp only [derefTriples, List.map_cons]
        rw [iterStore_read_old, iterStore_read_ns]
        refine congrArg (List.cons _) ?_
        exact derefTriples_congr st _ acc
          (fun x hx => ⟨iterStore_frame _ _ _ _ _ (hacc x hx).1,
            iterStore_frame _ _ _ _ _ (hacc x hx).2⟩)
      rw [hcons]
      simp [forwardPairs, List.reverse_cons, List.append_assoc]

theorem unapplyPhase2_false (m : Migration σ) (ed : SchemaEditor) (st : Store σ) :
    ∀ (l : List (Operation σ × Nat × Nat)),
      unapplyPhase2 m ed false st l =
        (derefTriples st l).map
          (fun y => Event.database_backwards y.1.str_repr y.2.2 y.2.1
            (!ed.atomic_migration && atomicOperation m y.1)) := by
  intro l
  induction l with
  | nil => rfl
  | cons x xs ih =>
    obtain ⟨op, to_state, from_state⟩ := x
    simp [unapplyPhase2, derefTriples, ih]

theorem ensure_schema_has_table (db : DBState) :
    ((MigrationRecorder.ensure_schema db).1).has_table = true := by
  by_cases h : db.has_table <;> simp [MigrationRecorder.ensure_schema, h]

/-! ## Claim C1 -/

/-- C1 counterexample: the claim states that `state_forwards` runs exactly
once per operation even when `collect_sql` is true and the operation has
`reduces_to_sql = False`, so the resulting ProjectState would equal the
fold of `state_forwards` over all operations regardless of `collect_sql`.
On the code this is false: with `collect_sql = true` the `continue` at
`migration.py` line 138 fires before `state_forwards`, so for the one-op
migration `mEx1` (whose operation increments the payload and has
`reduces_to_sql = False`) `apply` leaves the state payload at 0 while the
fold gives 1, and the `collect_sql = false` run gives 1. -/
theorem apply_collect_sql_skips_state_forwards :
    ((mEx1.apply st0 0 edDefault true).1).read 0 = 0 ∧
    stateForwardsFold mEx1.app_label mEx1.operations (st0.read 0) = 1 ∧
    ((mEx1.apply st0 0 edDefault false).1).read 0 = 1 :=
  ⟨rfl, rfl, rfl⟩

/-- C1 (amended): `apply` returns the very `project_state` reference it
was given, whose payload equals the fold of `state_forwards` over the
operations that actually execute: all of them when `collect_sql` is
false, and only those with `reduces_to_sql = True` when `collect_sql` is
true (an operation skipped by SQL collection runs neither
`state_forwards` nor `database_forwards`). -/
theorem apply_state_is_fold_of_executed_ops (m : Migration σ) (st : Store σ) (ps : Nat)
    (ed : SchemaEditor) (collect_sql : Bool) (hp : ps < st.next) :
    (m.apply st ps ed collect_sql).2.1 = ps ∧
    ((m.apply st ps ed collect_sql).1).read ps =
      stateForwardsFold m.app_label (executedOps collect_sql m.operations) (st.read ps) ∧
    ((m.apply st ps ed false).1).read ps =
      stateForwardsFold m.app_label m.operations (st.read ps) :=
  ⟨rfl, applyLoop_read_ps m ed collect_sql ps m.operations st hp, by
    simpa [executedOps] using applyLoop_read_ps m ed false ps m.operations st hp⟩

/-- Witness for `apply_state_is_fold_of_executed_ops` at a concrete
input. -/
theorem apply_state_is_fold_of_executed_ops_witness :
    0 < st0.next ∧
    ((mEx1.apply st0 0 edDefault true).2.1 = 0 ∧
      ((mEx1.apply st0 0 edDefault true).1).read 0 =
        stateForwardsFold mEx1.app_label (executedOps true mEx1.operations) (st0.read 0) ∧
      ((mEx1.apply st0 0 edDefault false).1).read 0 =
        stateForwardsFold mEx1.app_label mEx1.operations (st0.read 0)) :=
  ⟨by decide, apply_state_is_fold_of_executed_ops mEx1 st0 0 edDefault true (by decide)⟩

/-! ## Claim C2 -/

/-- C2 counterexample: the claim states that `unapply` applied to the
result of `apply` restores a ProjectState equivalent to the original.
On the code this is false: `unapply` performs all phase-1 reconstruction
on clones and returns its `project_state` argument unchanged, so after
`apply` advanced the payload from 0 to 2 (migration `mEx2` has two
incrementing operations), the state `unapply` returns still holds 2, not
the original 0. -/
theorem unapply_after_apply_not_original :
    st0.read 0 = 0 ∧
    unapplyRead (mEx2.unapply (mEx2.apply st0 0 edDefault false).1 0 edDefault false) 0 =
      some 2 ∧
    some (2 : Nat) ≠ some (st0.read 0) :=
  ⟨rfl, rfl, by decide⟩

/-- C2 (amended): for a migration whose operations are all reversible,
`unapply` after `apply` succeeds and returns the project state exactly as
`apply` left it — `unapply` reverses only database-level actions and
never rewinds (or otherwise modifies) the in-memory project state it is
handed. -/
theorem unapply_after_apply_returns_applied_state (m : Migration σ) (st : Store σ)
    (ps : Nat) (ed : SchemaEditor)
    (hrev : ∀ op ∈ m.operations, op.reversible = true) (hp : ps < st.next) :
    unapplyRef (m.unapply (m.apply st ps ed false).1 ps ed false) = some ps ∧
    unapplyRead (m.unapply (m.apply st ps ed false).1 ps ed false) ps =
      some (((m.apply st ps ed false).1).read ps) := by
  have hp1 : ps < ((m.apply st ps ed false).1).next :=
    lt_of_lt_of_le hp (applyLoop_next_mono m ed false ps m.operations st)
  obtain ⟨stF, to_run, heq, -⟩ :=
    unapplyPhase1_ok m m.operations ((m.apply st ps ed false).1) ps [] hrev hp1
      (by intro x hx; cases hx)
  have hframe := unapplyPhase1_frame m m.operations ((m.apply st ps ed false).1) ps []
    stF to_run heq
  simp [Migration.unapply, heq, unapplyRef, unapplyRead, hframe.2 ps hp1]

/-- Witness for `unapply_after_apply_returns_applied_state` at a concrete
input. -/
theorem unapply_after_apply_returns_applied_state_witness :
    (∀ op ∈ mEx2.operations, op.reversible = true) ∧ 0 < st0.next ∧
    (unapplyRef (mEx2.unapply (mEx2.apply st0 0 edDefault false).1 0 edDefault false) =
        some 0 ∧
      unapplyRead (mEx2.unapply (mEx2.apply st0 0 edDefault false).1 0 edDefault false) 0 =
        some (((mEx2.apply st0 0 edDefault false).1).read 0)) :=
  ⟨by decide, by decide,
    unapply_after_apply_returns_applied_state mEx2 st0 0 edDefault (by decide) (by decide)⟩

/-! ## Claim C3 -/

/-- C3: if a migration contains an irreversible operation, `unapply`
raises `IrreversibleError` for the first such operation; the message
names both the operation (its repr) and the migration
(`app_label.name`), and no `database_backwards` call is made — the error
return carries no event trace at all. -/
theorem unapply_irreversible_raises (m : Migration σ) (st : Store σ) (ps : Nat)
    (ed : SchemaEditor) (collect_sql : Bool) (op : Operation σ)
    (hfind : m.operations.find? (fun o => !o.reversible) = some op) :
    op ∈ m.operations ∧ op.reversible = false ∧
    m.unapply st ps ed collect_sql =
      Except.error
        ⟨"Operation " ++ op.str_repr ++ " in " ++ m.app_label ++ "." ++ m.name
          ++ " is not reversible"⟩ ∧
    unapplyEvents (m.unapply st ps ed collect_sql) = [] := by
  have herr := unapplyPhase1_error m m.operations st ps [] op hfind
  refine ⟨List.mem_of_find?_eq_some hfind, ?_, ?_, ?_⟩
  · simpa using List.find?_some hfind
  · simp [Migration.unapply, herr]
  · simp [Migration.unapply, herr, unapplyEvents]

/-- Witness for `unapply_irreversible_raises` at a concrete input: the
migration `mEx3 = app1.0004_auto` whose second operation `opIrrev` is
irreversible. -/
theorem unapply_irreversible_raises_witness :
    mEx3.operations.find? (fun o => !o.reversible) = some opIrrev ∧
    (opIrrev ∈ mEx3.operations ∧ opIrrev.reversible = false ∧
      mEx3.unapply st0 0 edDefault false =
        Except.error
          ⟨"Operation " ++ opIrrev.str_repr ++ " in " ++ mEx3.app_label ++ "."
            ++ mEx3.name ++ " is not reversible"⟩ ∧
      unapplyEvents (mEx3.unapply st0 0 edDefault false) = []) :=
  ⟨rfl, unapply_irreversible_raises mEx3 st0 0 edDefault false opIrrev rfl⟩

/-! ## Claim C4 -/

/-- C4 counterexample: the claim states that `database_forwards` is
wrapped in a per-operation transaction exactly when the backend lacks
native transactional DDL, or when `atomic_operation` is true while the
migration is not wrapped atomically.  On the code this is false: for the
migration `mEx4` (one default operation, `atomic = False`) on a backend
without transactional DDL (`edNoDdl`), the spec-worded condition demands
a wrap, but the code's condition
`not schema_editor.atomic_migration and atomic_operation` is false
because `atomic_operation` is false, so `database_forwards` runs
unwrapped. -/
theorem apply_wrap_differs_from_claim :
    (mEx4.apply st0 0 edNoDdl false).2.2 =
      [Event.database_forwards "<SqlOp>" 0 1 false] ∧
    specWrapCondition mEx4 edNoDdl opSql = true ∧
    mEx4.operations = [opSql] :=
  ⟨rfl, rfl, rfl⟩

/-- C4 (amended): `atomic_operation` is computed as
`operation.atomic OR (migration.atomic AND operation.atomic is not
explicitly False)`, and each executed operation's `database_forwards`
call is wrapped in a dedicated per-operation transaction exactly when the
editor is not running the whole migration in one transaction (the backend
lacks transactional DDL or the migration is not wrapped atomically) AND
`atomic_operation` is true; otherwise it is called directly.  Stated over
the full trace of `apply`, with both conditions spelled out. -/
theorem apply_wraps_iff_not_atomic_migration_and_atomic_operation (m : Migration σ)
    (st : Store σ) (ps : Nat) (ed : SchemaEditor) (collect_sql : Bool)
    (hp : ps < st.next) :
    ((m.apply st ps ed collect_sql).2.2).filter isDatabaseForwards =
      (forwardPairs m.app_label (st.read ps) (executedOps collect_sql m.operations)).map
        (fun x => Event.database_forwards x.1.str_repr x.2.1 x.2.2
          (!(ed.can_rollback_ddl && ed.migration_wrapped) &&
            ((x.1.atomic == some true) || (m.atomic && !(x.1.atomic == some false))))) := by
  simpa [Migration.apply, SchemaEditor.atomic_migration, atomicOperation] using
    applyLoop_trace m ed collect_sql ps m.operations st hp

/-- Witness for `apply_wraps_iff_not_atomic_migration_and_atomic_operation`
at a concrete input. -/
theorem apply_wraps_iff_witness :
    0 < st0.next ∧
    ((mEx4.apply st0 0 edNoDdl false).2.2).filter isDatabaseForwards =
      (forwardPairs mEx4.app_label (st0.read 0) (executedOps false mEx4.operations)).map
        (fun x => Event.database_forwards x.1.str_repr x.2.1 x.2.2
          (!(edNoDdl.can_rollback_ddl && edNoDdl.migration_wrapped) &&
            ((x.1.atomic == some true) || (mEx4.atomic && !(x.1.atomic == some false))))) :=
  ⟨by decide,
    apply_wraps_iff_not_atomic_migration_and_atomic_operation mEx4 st0 0 edNoDdl false
      (by decide)⟩

/-! ## Claim C5 -/

/-- C5: for an all-reversible migration, `unapply` (with the default
`collect_sql = False`) calls `database_backwards` once per operation in
reverse-of-forward order, passing as `from_state` the payload immediately
after that operation's `state_forwards` during forward replay and as
`to_state` the payload immediately before it, under the same atomicity
rule as `apply`. -/
theorem unapply_database_backwards_reverse_order (m : Migration σ) (st : Store σ)
    (ps : Nat) (ed : SchemaEditor)
    (hrev : ∀ op ∈ m.operations, op.reversible = true) (hp : ps < st.next) :
    unapplyEvents (m.unapply st ps ed false) =
      ((forwardPairs m.app_label (st.read ps) m.operations).reverse).map
        (fun x => Event.database_backwards x.1.str_repr x.2.2 x.2.1
          (!ed.atomic_migration && atomicOperation m x.1)) := by
  obtain ⟨stF, to_run, heq, hderef⟩ :=
    unapplyPhase1_ok m m.operations st ps [] hrev hp (by intro x hx; cases hx)
  simp only [Migration.unapply, heq, unapplyEvents]
  rw [unapplyPhase2_false m ed stF to_run, hderef]
  simp [derefTriples]

/-- Witness for `unapply_database_backwards_reverse_order` at a concrete
input. -/
theorem unapply_database_backwards_reverse_order_witness :
    (∀ op ∈ mEx2.operations, op.reversible = true) ∧ 0 < st0.next ∧
    unapplyEvents (mEx2.unapply st0 0 edDefault false) =
      ((forwardPairs mEx2.app_label (st0.read 0) mEx2.operations).reverse).map
        (fun x => Event.database_backwards x.1.str_repr x.2.2 x.2.1
          (!edDefault.atomic_migration && atomicOperation mEx2 x.1)) :=
  ⟨by decide, by decide,
    unapply_database_backwards_reverse_order mEx2 st0 0 edDefault (by decide) (by decide)⟩

/-! ## Claim C6 -/

/-- C6: two `Migration` instances compare equal exactly when both `name`
and `app_label` match — no other attribute (operations, dependencies,
`run_before`, `replaces`, `initial`, `atomic`) is consulted — and equal
migrations have identical hash values. -/
theorem migration_eq_iff_key_and_hash (a b : Migration σ) :
    (Migration.eq a b = true ↔ a.name = b.name ∧ a.app_label = b.app_label) ∧
    (Migration.eq a b = true → Migration.hashVal a = Migration.hashVal b) := by
  constructor
  · simp [Migration.eq, Bool.and_eq_true_iff]
  · intro h
    have h' : a.name = b.name ∧ a.app_label = b.app_label := by
      simpa [Migration.eq, Bool.and_eq_true_iff] using h
    simp [Migration.hashVal, h'.1, h'.2]

/-- Witness for `migration_eq_iff_key_and_hash`: `mEqA` and `mEqB` share
`(app_label, name)` but differ in every other attribute, and still
compare equal. -/
theorem migration_eq_iff_key_and_hash_witness :
    ((Migration.eq mEqA mEqB = true ↔
        mEqA.name = mEqB.name ∧ mEqA.app_label = mEqB.app_label) ∧
      (Migration.eq mEqA mEqB = true →
        Migration.hashVal mEqA = Migration.hashVal mEqB)) ∧
    Migration.eq mEqA mEqB = true :=
  ⟨migration_eq_iff_key_and_hash mEqA mEqB, by decide⟩

/-! ## Claim C7 -/

/-- C7: `record_applied(app, name)` makes `applied_migrations()` contain
the key `(app, name)`; a following `record_unapplied(app, name)` removes
it; `flush()` leaves the applied set empty; and both `record_applied` and
`record_unapplied` issue their `ensure_schema()` queries before the
insert/delete touches the table. -/
theorem recorder_record_applied_unapplied_flush (db : DBState) (app name : String) :
    ((app, name) ∈
      (MigrationRecorder.applied_migrations
        (MigrationRecorder.record_applied db app name).1).map Prod.fst) ∧
    ((app, name) ∉
      (MigrationRecorder.applied_migrations
        (MigrationRecorder.record_unapplied
          (MigrationRecorder.record_applied db app name).1 app name).1).map Prod.fst) ∧
    MigrationRecorder.applied_migrations (MigrationRecorder.flush db).1 = [] ∧
    (MigrationRecorder.record_applied db app name).2 =
      (MigrationRecorder.ensure_schema db).2 ++ [DBEvent.insert app name] ∧
    (MigrationRecorder.record_unapplied db app name).2 =
      (MigrationRecorder.ensure_schema db).2 ++ [DBEvent.delete app name] := by
  refine ⟨?_, ?_, ?_, rfl, rfl⟩
  · by_cases h : db.has_table <;>
    · simp [MigrationRecorder.record_applied, MigrationRecorder.ensure_schema, h,
        MigrationRecorder.applied_migrations, List.mem_map, List.mem_append]
  · by_cases h : db.has_table <;>
    · simp [MigrationRecorder.record_applied, MigrationRecorder.record_unapplied,
        MigrationRecorder.ensure_schema, h, MigrationRecorder.applied_migrations,
        List.mem_map, List.mem_filter, List.mem_append]
      intro x _ hor ha
      rcases hor with h1 | h2
      · exact absurd ha h1
      · exact h2
  · by_cases h : db.has_table <;>
      simp [MigrationRecorder.flush, MigrationRecorder.applied_migrations, h]

/-- Witness for `recorder_record_applied_unapplied_flush` at a concrete
fresh connection. -/
theorem recorder_record_applied_unapplied_flush_witness :
    (("app1", "0001_first") ∈
      (MigrationRecorder.applied_migrations
        (MigrationRecorder.record_applied dbEmpty "app1" "0001_first").1).map Prod.fst) ∧
    (("app1", "0001_first") ∉
      (MigrationRecorder.applied_migrations
        (MigrationRecorder.record_unapplied
          (MigrationRecorder.record_applied dbEmpty "app1" "0001_first").1
          "app1" "0001_first").1).map Prod.fst) ∧
    MigrationRecorder.applied_migrations (MigrationRecorder.flush dbEmpty).1 = [] ∧
    (MigrationRecorder.record_applied dbEmpty "app1" "0001_first").2 =
      (MigrationRecorder.ensure_schema dbEmpty).2 ++ [DBEvent.insert "app1" "0001_first"] ∧
    (MigrationRecorder.record_unapplied dbEmpty "app1" "0001_first").2 =
      (MigrationRecorder.ensure_schema dbEmpty).2 ++ [DBEvent.delete "app1" "0001_first"] :=
  recorder_record_applied_unapplied_flush dbEmpty "app1" "0001_first"

/-! ## Claim C8 -/

/-- C8: `applied_migrations()` returns the empty mapping (and no error)
when the bookkeeping table is absent, and the mapping keyed by
`(app, name)` over all recorded rows when the table exists. -/
theorem applied_migrations_empty_iff_no_table (db : DBState) :
    (db.has_table = false → MigrationRecorder.applied_migrations db = []) ∧
    (db.has_table = true → MigrationRecorder.applied_migrations db =
      db.rows.map (fun r => ((r.app, r.name), r))) := by
  constructor <;> intro h <;> simp [MigrationRecorder.applied_migrations, h]

/-- Witness for `applied_migrations_empty_iff_no_table` at concrete
states (a fresh connection and a populated one). -/
theorem applied_migrations_empty_iff_no_table_witness :
    ((dbEmpty.has_table = false → MigrationRecorder.applied_migrations dbEmpty = []) ∧
      (dbEmpty.has_table = true → MigrationRecorder.applied_migrations dbEmpty =
        dbEmpty.rows.map (fun r => ((r.app, r.name), r)))) ∧
    MigrationRecorder.applied_migrations dbEmpty = [] :=
  ⟨applied_migrations_empty_iff_no_table dbEmpty,
    (applied_migrations_empty_iff_no_table dbEmpty).1 rfl⟩

/-! ## Claim C9 -/

/-- C9: whenever `unapply` returns, it returns the very `project_state`
reference it was given, and every ProjectState object that existed before
the call — the caller's state included — holds an unchanged payload:
phase-1 state reconstruction happens only on clones. -/
theorem unapply_returns_caller_state_unmodified (m : Migration σ) (st : Store σ)
    (ps : Nat) (ed : SchemaEditor) (collect_sql : Bool) (hp : ps < st.next)
    (hok : exceptOk (m.unapply st ps ed collect_sql) = true) :
    unapplyRef (m.unapply st ps ed collect_sql) = some ps ∧
    unapplyRead (m.unapply st ps ed collect_sql) ps = some (st.read ps) ∧
    (∀ q, q < st.next →
      unapplyRead (m.unapply st ps ed collect_sql) q = some (st.read q)) := by
  cases hphase : unapplyPhase1 m st ps m.operations [] with
  | error e => simp [Migration.unapply, hphase, exceptOk] at hok
  | ok p =>
    obtain ⟨stF, to_run⟩ := p
    have hframe := unapplyPhase1_frame m m.operations st ps [] stF to_run hphase
    refine ⟨?_, ?_, ?_⟩
    · simp [Migration.unapply, hphase, unapplyRef]
    · simp [Migration.unapply, hphase, unapplyRead, hframe.2 ps hp]
    · intro q hq
      simp [Migration.unapply, hphase, unapplyRead, hframe.2 q hq]

/-- Witness for `unapply_returns_caller_state_unmodified` at a concrete
input. -/
theorem unapply_returns_caller_state_unmodified_witness :
    0 < st0.next ∧ exceptOk (mEx2.unapply st0 0 edDefault false) = true ∧
    (unapplyRef (mEx2.unapply st0 0 edDefault false) = some 0 ∧
      unapplyRead (mEx2.unapply st0 0 edDefault false) 0 = some (st0.read 0) ∧
      (∀ q, q < st0.next →
        unapplyRead (mEx2.unapply st0 0 edDefault false) q = some (st0.read q))) :=
  ⟨by decide, rfl,
    unapply_returns_caller_state_unmodified mEx2 st0 0 edDefault false (by decide) rfl⟩

/-! ## Claim C10 -/

/-- C10: `flush()`, unlike `record_applied` and `record_unapplied`, does
not call `ensure_schema()`: on a connection without the bookkeeping table
it issues only the bulk delete, creating no table, whereas both record
operations do create the table first. -/
theorem flush_does_not_ensure_schema (db : DBState) (app name : String)
    (h : db.has_table = false) :
    (MigrationRecorder.flush db).2 = [DBEvent.delete_all] ∧
    ((MigrationRecorder.flush db).1).has_table = false ∧
    DBEvent.create_table ∉ (MigrationRecorder.flush db).2 ∧
    DBEvent.create_table ∈ (MigrationRecorder.record_applied db app name).2 ∧
    DBEvent.create_table ∈ (MigrationRecorder.record_unapplied db app name).2 := by
  refine ⟨rfl, by simp [MigrationRecorder.flush, h], by simp [MigrationRecorder.flush],
    ?_, ?_⟩
  · simp [MigrationRecorder.record_applied, MigrationRecorder.ensure_schema, h]
  · simp [MigrationRecorder.record_unapplied, MigrationRecorder.ensure_schema, h]

/-- Witness for `flush_does_not_ensure_schema` at a concrete fresh
connection. -/
theorem flush_does_not_ensure_schema_witness :
    dbEmpty.has_table = false ∧
    ((MigrationRecorder.flush dbEmpty).2 = [DBEvent.delete_all] ∧
      ((MigrationRecorder.flush dbEmpty).1).has_table = false ∧
      DBEvent.create_table ∉ (MigrationRecorder.flush dbEmpty).2 ∧
      DBEvent.create_table ∈ (MigrationRecorder.record_applied dbEmpty "app1" "0001_first").2 ∧
      DBEvent.create_table ∈ (MigrationRecorder.record_unapplied dbEmpty "app1" "0001_first").2) :=
  ⟨rfl, flush_does_not_ensure_schema dbEmpty "app1" "0001_first" rfl⟩

end DjangoMigrations
